import Mathlib

/-!
# Verification of the palmeiras-calendar-sync pipeline

Shallow embedding of the retrieval–normalize–reconcile pipeline of the
`palmeiras-calendar-sync` repository, together with theorems settling the
specified properties of its components.

Conventions of the embedding:
* JavaScript `Date` values are epoch milliseconds, modelled as `Int`
  (comparison between `Date` objects coerces to this number).
* Strings are Lean `String`s; character-level operations mirror the
  JavaScript string methods used by the source (restricted to the character
  ranges the final regex/filter steps keep, which are ASCII).
* Network and filesystem effects are passed in explicitly as environments
  (per-attempt fetch outcomes, per-write calendar outcomes, file contents).
* Asynchronous code is sequential in the source (one `await` at a time), so
  it is embedded as ordinary sequential functions.
-/

deriving instance DecidableEq for Except

namespace PalmeirasSync

/-- Canonical fixture record (the standardized `Match` format of the source).
`date` is the JS `Date` value in epoch milliseconds. -/
structure Match where
  date : Int
  opponent : String
  competition : String
  location : String
  broadcast : String
  isHome : Bool
  source : String
  deriving Repr, DecidableEq

/-! ## String normalization for the Unique Key (`src/unnamed/part_007`, `getMatchUniqueKey`) -/

/-- JS `\s` whitespace test, restricted to the characters that can occur here
(ASCII whitespace plus NBSP / BOM). -/
def isJsWs (c : Char) : Bool :=
  c = ' ' || c = '\t' || c = '\n' || c = '\r' ||
  c.toNat = 0x0b || c.toNat = 0x0c || c.toNat = 0xa0 || c.toNat = 0xfeff

/-- JS `String.prototype.trim`: drop whitespace from both ends. -/
def jsTrim (cs : List Char) : List Char :=
  ((cs.dropWhile isJsWs).reverse.dropWhile isJsWs).reverse

/-- Helper for `collapseWs`: `prevWs` records whether the previous character
was whitespace (i.e. whether we are inside a run already replaced). -/
def collapseWsAux (prevWs : Bool) : List Char → List Char
  | [] => []
  | c :: cs =>
    if isJsWs c then
      if prevWs then collapseWsAux true cs else '_' :: collapseWsAux true cs
    else c :: collapseWsAux false cs

/-- JS `replace(/\s+/g, '_')`: each maximal whitespace run becomes one `'_'`. -/
def collapseWs (cs : List Char) : List Char :=
  collapseWsAux false cs

/-- Character class `[a-z0-9_]` (what `replace(/[^a-z0-9_]/g, '')` keeps). -/
def isKeyChar (c : Char) : Bool :=
  ('a' ≤ c && c ≤ 'z') || ('0' ≤ c && c ≤ '9') || c = '_'

/-- The normalizer inside `getMatchUniqueKey`:
`str.toLowerCase().trim().replace(/\s+/g, '_').replace(/[^a-z0-9_]/g, '')`.
`toLowerCase` is modelled by `Char.toLower` (the ASCII mapping; non-ASCII
letters are removed by the final character filter in either case). -/
def normalizeKeyPart (s : String) : String :=
  ⟨(collapseWs (jsTrim (s.data.map Char.toLower))).filter isKeyChar⟩

/-- `getMatchUniqueKey` (src/unnamed/part_007, lines 16–24): stable identity of
a fixture, derived from opponent and competition only. -/
def getMatchUniqueKey (m : Match) : String :=
  "palmeiras_vs_" ++ normalizeKeyPart m.opponent ++ "_" ++ normalizeKeyPart m.competition

/-! ## Match Processor (`src/unnamed/part_007`, `processMatches`)

The dedup map is a JS `Map` keyed by the unique key: insertion order of keys
is preserved, `set` on an existing key updates the value in place.  It is
embedded as an association list with the same semantics. -/

/-- JS `Map.prototype.set` on an existing key: replace the value, keep the
key's position. -/
def replaceEntry (acc : List (String × Match)) (k : String) (m : Match) :
    List (String × Match) :=
  acc.map (fun e => if e.1 = k then (k, m) else e)

/-- One iteration of the dedup loop of `processMatches`: keep the incumbent
unless the new match has a strictly earlier date. -/
def dedupStep (acc : List (String × Match)) (m : Match) : List (String × Match) :=
  match acc.lookup (getMatchUniqueKey m) with
  | none => acc ++ [(getMatchUniqueKey m, m)]
  | some existing =>
    if m.date < existing.date then replaceEntry acc (getMatchUniqueKey m) m else acc

/-- `processMatches` (src/unnamed/part_007, lines 31–65): filter to strictly
future matches (`match.date > now`), deduplicate by unique key keeping the
earliest date, sort ascending by date (JS `Array.prototype.sort` is stable).
`nowMs` is the `new Date()` taken at call time. -/
def processMatches (nowMs : Int) (ms : List Match) : List Match :=
  (((ms.filter (fun m => nowMs < m.date)).foldl dedupStep []).map (·.2)).mergeSort
    (fun a b => a.date ≤ b.date)

/-- The value-combining step that `dedupStep` performs on the entry of a fixed
key: first colliding match wins unless a later one is strictly earlier. -/
def minStep (cur : Option Match) (m : Match) : Option Match :=
  match cur with
  | none => some m
  | some ex => some (if m.date < ex.date then m else ex)

/-- Every entry of the dedup map carries the unique key of its value. -/
def entriesConsistent (acc : List (String × Match)) : Prop :=
  ∀ e ∈ acc, e.1 = getMatchUniqueKey e.2

/-- Concrete sample fixture: a Corinthians fixture at the later date. -/
def sampleLater : Match :=
  { date := 100, opponent := "Corinthians", competition := "Brasileirão 2026",
    location := "", broadcast := "", isHome := true, source := "a" }

/-- Concrete sample fixture: the same Unique Key at an earlier date. -/
def sampleEarlier : Match :=
  { date := 50, opponent := "Corinthians", competition := "Brasileirão 2026",
    location := "", broadcast := "", isHome := true, source := "b" }

/-! ## Civil-calendar arithmetic

`Date.UTC` and the `getUTC*` accessors use the proleptic Gregorian calendar;
they are embedded with Howard Hinnant's day-count algorithms. -/

/-- Day number (days since 1970-01-01) of civil year/month/day. `m` is
1-based in 1..12; `d` may be out of range (the date normalizes linearly,
exactly as `Date.UTC` treats an out-of-range day). -/
def daysFromCivil (y : Int) (m : Nat) (d : Int) : Int :=
  let y' := y - (if m ≤ 2 then 1 else 0)
  let era := Int.fdiv y' 400
  let yoe := y' - era * 400
  let mp : Int := if m ≤ 2 then (m : Int) + 9 else (m : Int) - 3
  let doy := Int.fdiv (153 * mp + 2) 5 + d - 1
  let doe := yoe * 365 + Int.fdiv yoe 4 - Int.fdiv yoe 100 + doy
  era * 146097 + doe - 719468

/-- Civil year/month/day (month 1-based) of a day number. -/
def civilFromDays (z : Int) : Int × Nat × Nat :=
  let z' := z + 719468
  let era := Int.fdiv z' 146097
  let doe := z' - era * 146097
  let yoe :=
    Int.fdiv (doe - Int.fdiv doe 1460 + Int.fdiv doe 36524 - Int.fdiv doe 146096) 365
  let y := yoe + era * 400
  let doy := doe - (365 * yoe + Int.fdiv yoe 4 - Int.fdiv yoe 100)
  let mp := Int.fdiv (5 * doy + 2) 153
  let d := doy - Int.fdiv (153 * mp + 2) 5 + 1
  let m := if mp < 10 then mp + 3 else mp - 9
  (y + (if m ≤ 2 then 1 else 0), m.toNat, d.toNat)

/-- `Date.UTC(year, month0, day, hour, minute)` in epoch milliseconds.
`month0` is 0-based as in JS and may be out of 0..11 (it normalizes into the
year); the two-digit-year quirk (0..99 meaning 1900+y) is included for
fidelity though no call site of this program can reach it. -/
def dateUTCms (year month0 day hour minute : Int) : Int :=
  let y0 := if 0 ≤ year ∧ year ≤ 99 then year + 1900 else year
  let y := y0 + Int.fdiv month0 12
  let m := (Int.emod month0 12).toNat + 1
  daysFromCivil y m day * 86400000 + hour * 3600000 + minute * 60000

/-- Civil fields (year, 1-based month, day, hour, minute) of an
epoch-millisecond instant, at the minute precision of the source's
`toLocaleString` format string (seconds are not shown). -/
def civilFromMs (t : Int) : Int × Nat × Nat × Nat × Nat :=
  let days := Int.fdiv t 86400000
  let rem := t - days * 86400000
  match civilFromDays days with
  | (y, m, d) => (y, m, d, (Int.fdiv rem 3600000).toNat, ((Int.fdiv rem 60000).emod 60).toNat)

/-- `Date.prototype.getFullYear` of an instant (the server clock runs in UTC,
so the local civil fields are the UTC ones). -/
def getUTCFullYear (t : Int) : Int := (civilFromMs t).1

/-- `Date.prototype.getMonth` (0-based) of an instant, server clock in UTC. -/
def getUTCMonth0 (t : Int) : Nat := (civilFromMs t).2.1 - 1

/-- The composite step of `createDateInSaoPaulo` lines 105–128: format instant
`t` in a timezone (producing its civil fields at minute precision) and
re-encode those fields through `Date.UTC`. The timezone shift itself is
applied by the caller, so this is the calendar round-trip at `t`. -/
def reencodeCivil (t : Int) : Int :=
  match civilFromMs t with
  | (y, mo, d, h, mi) => dateUTCms y ((mo : Int) - 1) (d : Int) (h : Int) (mi : Int)

/-! ## Match Normalizer (`src/src/retrieval/verdao.js`) -/

/-- São-Paulo timezone offset in ms (civil = UTC + offset) as a function of
the instant, the data `toLocaleString` reads from the tz database.  Brazil
abolished daylight saving in 2019, so for every instant this program handles
the offset is the constant UTC-3.  Theorems about the conversion algorithm
are stated for an arbitrary offset function. -/
def saoPauloTz : Int → Int := fun _ => -10800000

/-- `createDateInSaoPaulo` (src/src/retrieval/verdao.js, lines 90–140),
parametrized by the timezone-offset function `tz` consulted by
`toLocaleString('en-US', { timeZone: 'America/Sao_Paulo', ... })`:
formatting instant `u` shows the civil fields of `u + tz u`. -/
def createDateInSaoPaulo (tz : Int → Int) (year month day hour minute : Int) : Int :=
  let utcDate := dateUTCms year (month - 1) day hour minute
  let saoPauloAsUTC := reencodeCivil (utcDate + tz utcDate)
  let offsetMs := utcDate - saoPauloAsUTC
  let targetUTC := dateUTCms year (month - 1) day hour minute
  targetUTC + offsetMs

/-- One-or-two-digit number at the head of `cs`: the candidate parses of the
regex piece `\d{1,2}`, in its greedy backtracking order (two digits first). -/
def digits12 : List Char → List (Nat × List Char)
  | c1 :: c2 :: rest =>
    if c1.isDigit then
      if c2.isDigit then
        [((c1.toNat - 48) * 10 + (c2.toNat - 48), rest), (c1.toNat - 48, c2 :: rest)]
      else [(c1.toNat - 48, c2 :: rest)]
    else []
  | [c1] => if c1.isDigit then [(c1.toNat - 48, [])] else []
  | [] => []

/-- The character class `[–-]` (en-dash or hyphen) of the date-time regex. -/
def isDashChar (c : Char) : Bool := c = '–' || c = '-'

/-- The date-time regex `(\d{1,2})\/(\d{1,2})\s*[–-]\s*(\d{1,2})h(\d{2})`
anchored at the start of `cs`, following the regex's backtracking order;
returns the captures `(day, month, hour, minute)` as `parseInt` reads them. -/
def dtMatchHere (cs : List Char) : Option (Nat × Nat × Nat × Nat) :=
  (digits12 cs).findSome? fun dp =>
    match dp.2 with
    | '/' :: r2 =>
      (digits12 r2).findSome? fun mp =>
        match mp.2.dropWhile isJsWs with
        | c :: r5 =>
          if isDashChar c then
            (digits12 (r5.dropWhile isJsWs)).findSome? fun hp =>
              match hp.2 with
              | 'h' :: d1 :: d2 :: _ =>
                if d1.isDigit && d2.isDigit then
                  some (dp.1, mp.1, hp.1, (d1.toNat - 48) * 10 + (d2.toNat - 48))
                else none
              | _ => none
          else none
        | [] => none
    | _ => none

/-- `String.prototype.match` with the (non-global) date-time regex: first
position, scanning left to right, where the pattern matches. -/
def dtMatch : List Char → Option (Nat × Nat × Nat × Nat)
  | [] => none
  | c :: cs =>
    match dtMatchHere (c :: cs) with
    | some r => some r
    | none => dtMatch cs

/-- JS `\w` word character `[A-Za-z0-9_]` (used for the `\b` boundaries). -/
def isWordChar (c : Char) : Bool := c.isAlpha || c.isDigit || c = '_'

/-- The year regex `\b(20\d{2})\b` anchored at the head of `cs` (the `\b`
before the head is checked by the caller); `after` boundary: the character
following the four digits, if any, must not be a word character. -/
def yearMatchHere (cs : List Char) : Option Nat :=
  match cs with
  | '2' :: '0' :: d1 :: d2 :: rest =>
    if d1.isDigit && d2.isDigit &&
        !(match rest with | r :: _ => isWordChar r | [] => false) then
      some (2000 + (d1.toNat - 48) * 10 + (d2.toNat - 48))
    else none
  | _ => none

/-- Left-to-right scan for `\b(20\d{2})\b`; `prev` is the character before
the current position (for the left word boundary). -/
def yearScan (prev : Option Char) : List Char → Option Nat
  | [] => none
  | c :: cs =>
    let boundaryOk := match prev with | none => true | some p => !isWordChar p
    match (if boundaryOk then yearMatchHere (c :: cs) else none) with
    | some y => some y
    | none => yearScan (some c) cs

/-- `competition.match(/\b(20\d{2})\b/)` of `parseDateTime`. -/
def extractYear (competition : String) : Option Nat :=
  yearScan none competition.data

/-- The year `parseDateTime` chooses: a 4-digit year embedded in the
competition label, else `now.getFullYear()`. -/
def chosenYear (nowMs : Int) (competition : String) : Int :=
  match extractYear competition with
  | some y => (y : Int)
  | none => getUTCFullYear nowMs

/-- `parseDateTime` (src/src/retrieval/verdao.js, lines 142–168). `nowMs` is
the `new Date()` taken inside the function; `tz` as in
`createDateInSaoPaulo`.  Returns `none` when the date-time text does not
match the pattern (the source returns `null`). -/
def parseDateTime (tz : Int → Int) (nowMs : Int) (dateTimeStr competition : String) :
    Option Int :=
  match dtMatch dateTimeStr.data with
  | none => none
  | some (day, month, hour, minute) =>
    let year := chosenYear nowMs competition
    let date := createDateInSaoPaulo tz year (month : Int) (day : Int) (hour : Int)
      (minute : Int)
    if date < nowMs ∧ 11 ≤ getUTCMonth0 nowMs then
      some (createDateInSaoPaulo tz (year + 1) (month : Int) (day : Int) (hour : Int)
        (minute : Int))
    else some date

/-! ## Broadcast normalization (`src/src/retrieval/verdao.js`, `parseBroadcast`) -/

/-- The `channelMap` object, in `Object.entries` order (integer-like keys
first, ascending, then string keys in insertion order — here that coincides
with the literal's order). -/
def channelMap : List (String × String) :=
  [("1", "Record"), ("2", "Cazé TV"), ("3", "TNT"), ("4", "HBO Max"),
   ("Globo", "Globo"), ("Sportv", "Sportv"), ("Premiere", "Premiere"),
   ("Amazon Prime", "Amazon Prime")]

/-- The split class `[,\|]` of `tvText.split(/[,\|]/)`. -/
def isSplitChar (c : Char) : Bool := c = ',' || c = '|'

/-- JS `hay.includes(needle)` on character lists. -/
def containsSub : List Char → List Char → Bool
  | [], needle => needle.isEmpty
  | c :: t, needle => needle.isPrefixOf (c :: t) || containsSub t needle

/-- JS `hay.includes(needle)` on strings. -/
def strContainsSub (hay needle : String) : Bool :=
  containsSub hay.data needle.data

/-- The regex `^\d+$` test of the broadcast loop. -/
def isAllDigits (cs : List Char) : Bool := !cs.isEmpty && cs.all Char.isDigit

/-- The fuzzy branch `Object.entries(channelMap).find(...)`: first entry
whose value or key occurs (lowercased) inside the token. -/
def fuzzyFindChannel (part : String) : Option String :=
  (channelMap.find? (fun e =>
    containsSub (part.data.map Char.toLower) (e.2.data.map Char.toLower) ||
    containsSub (part.data.map Char.toLower) (e.1.data.map Char.toLower))).map (·.2)

/-- The body of the `for (const part of parts)` loop of `parseBroadcast`,
accumulating into `channels`.  Own-property lookup `channelMap[part]` is
modelled by association-list lookup (no prototype-chain properties). -/
def broadcastStep (channels : List String) (part : String) : List String :=
  match channelMap.lookup part with
  | some v => channels ++ [v]
  | none =>
    if isAllDigits part.data then
      -- the source re-checks `channelMap[part]` here; it already failed above
      match channelMap.lookup part with
      | some v => channels ++ [v]
      | none => channels
    else
      match fuzzyFindChannel part with
      | some v => channels ++ [v]
      | none => channels ++ [part]

/-- `parseBroadcast` (src/src/retrieval/verdao.js, lines 170–207). -/
def parseBroadcast (tvText : String) : String :=
  if (jsTrim tvText.data).isEmpty then ""
  else
    let parts := (List.splitOnP isSplitChar tvText.data).map (fun t => String.mk (jsTrim t))
    let channels := parts.foldl broadcastStep []
    if channels.length > 0 then String.intercalate ", " channels else tvText

/-- Per-token mapping described by the spec's words for broadcast
normalization: map through the table, unmapped tokens pass through
verbatim. -/
def specBroadcastToken (part : String) : String :=
  match channelMap.lookup part with
  | some v => v
  | none =>
    match fuzzyFindChannel part with
    | some v => v
    | none => part

/-- Broadcast normalization as the spec's words describe it (refinement
reference, not source code): split on comma/pipe, trim, map each token with
unmapped tokens passing through verbatim, re-join with `", "`. -/
def specBroadcast (tvText : String) : String :=
  if (jsTrim tvText.data).isEmpty then ""
  else
    String.intercalate ", "
      (((List.splitOnP isSplitChar tvText.data).map
        (fun t => String.mk (jsTrim t))).map specBroadcastToken)

/-- Per-token mapping the code actually performs: exact table hit, else a
purely numeric token is dropped, else fuzzy hit or verbatim pass-through. -/
def amendedBroadcastToken (part : String) : Option String :=
  match channelMap.lookup part with
  | some v => some v
  | none =>
    if isAllDigits part.data then none
    else
      match fuzzyFindChannel part with
      | some v => some v
      | none => some part

/-- Broadcast normalization as amended: unmapped numeric tokens are dropped;
if no token survives, the raw text is returned unchanged. -/
def amendedBroadcast (tvText : String) : String :=
  if (jsTrim tvText.data).isEmpty then ""
  else
    let channels := ((List.splitOnP isSplitChar tvText.data).map
      (fun t => String.mk (jsTrim t))).filterMap amendedBroadcastToken
    if channels.length > 0 then String.intercalate ", " channels else tvText

/-! ## HTML Fetcher (`src/src/retrieval/verdao.js`, `fetchHTML`) -/

/-- Outcome of one `fetch(url, ...)` call: a 2xx response with body text, a
non-2xx response with its status code, or a thrown network error. -/
inductive FetchOutcome where
  | success (html : String)
  | httpStatus (code : Nat)
  | networkError (msg : String)
  deriving Repr, DecidableEq

/-- Result of `fetchHTML`: the returned value (`Except` models throwing; the
`Option` is the `null` sentinel for unpublished pages), the number of fetch
attempts performed, and the backoff delays awaited (ms, in order). -/
structure FetchResult where
  result : Except String (Option String)
  attempts : Nat
  delays : List Int
  deriving Repr, DecidableEq

/-- The retry loop of `fetchHTML` (src/src/retrieval/verdao.js, lines 48–81).
`outcomes i` is what the `i`-th fetch attempt does; `i` is the current
attempt index and `fuel = retries - i` the remaining iterations.  A delay of
`1000 * (i + 1)` ms is awaited after a failed attempt except the last one. -/
def fetchHTMLAux (outcomes : Nat → FetchOutcome) (retries : Nat) (i : Nat) :
    Nat → List Int → FetchResult
  | 0, ds =>
    ⟨.error ("Failed to fetch HTML after " ++ toString retries ++ " attempts"), i, ds⟩
  | fuel + 1, ds =>
    match outcomes i with
    | .success html => ⟨.ok (some html), i + 1, ds⟩
    | .httpStatus code =>
      if code = 404 || code = 410 then ⟨.ok none, i + 1, ds⟩
      else
        fetchHTMLAux outcomes retries (i + 1) fuel
          (ds ++ if 0 < fuel then [1000 * ((i : Int) + 1)] else [])
    | .networkError _ =>
      fetchHTMLAux outcomes retries (i + 1) fuel
        (ds ++ if 0 < fuel then [1000 * ((i : Int) + 1)] else [])

/-- `fetchHTML(url, retries = 3)`.  The `url` feeds only the `fetch` call and
log lines in the source; the per-attempt behavior is `outcomes`. -/
def fetchHTML (url : String) (outcomes : Nat → FetchOutcome) (retries : Nat := 3) :
    FetchResult :=
  fetchHTMLAux outcomes retries 0 retries []

/-- An attempt outcome that makes the loop continue retrying: not a success
and not the 404/410 sentinel. -/
def attemptFails : FetchOutcome → Prop
  | .success _ => False
  | .httpStatus code => ¬(code = 404 ∨ code = 410)
  | .networkError _ => True

/-- The linear backoff schedule `[1000, 2000, …, n*1000]` ms. -/
def backoffSchedule (n : Nat) : List Int :=
  (List.range n).map (fun (j : Nat) => 1000 * ((j : Int) + 1))

/-- The backoff delays performed from attempt index `i` over `n` further
failed attempts: `[1000*(i+1), …, 1000*(i+n)]`. -/
def backoffFrom (i : Nat) : Nat → List Int
  | 0 => []
  | n + 1 => 1000 * ((i : Int) + 1) :: backoffFrom (i + 1) n

/-- Environment of one source page inside `fetchPalmeirasFixtures`: its URL,
the behavior of its fetch attempts, and what `parseMatchesFromHTML` yields on
a given HTML body (the cheerio HTML traversal is an external collaborator;
the pipeline only consumes its output list). -/
structure PageEnv where
  url : String
  outcomes : Nat → FetchOutcome
  parse : String → List Match

/-- What one page contributes inside the page loop of
`fetchPalmeirasFixtures` (src/src/retrieval/verdao.js, lines 329–350): a
thrown fetch error is caught and the loop continues; a `null` HTML means the
page is skipped with `continue`; otherwise the parsed matches are appended. -/
def pageContribution (p : PageEnv) : List Match :=
  match (fetchHTML p.url p.outcomes 3).result with
  | .error _ => []
  | .ok none => []
  | .ok (some html) => p.parse html

/-- `fetchPalmeirasFixtures`: all pages' contributions in order. -/
def fetchPalmeirasFixtures (pages : List PageEnv) : List Match :=
  (pages.map pageContribution).flatten

/-- A sample source page whose fetch always returns HTTP 404. -/
def samplePage404 : PageEnv :=
  ⟨"https://ptd.verdao.net/paulista-2026/", fun _ => .httpStatus 404,
   fun _ => [sampleLater]⟩

/-- A sample source page whose fetch succeeds immediately. -/
def samplePageOk : PageEnv :=
  ⟨"https://ptd.verdao.net/", fun _ => .success "<html>", fun _ => [sampleEarlier]⟩

/-! ## Calendar Reconciler (`src/src/calendar.js`, `syncMatchesToCalendar`) -/

/-- The event title built by `matchToCalendarEvent`: home/away glyph,
`Palmeiras vs {opponent}`, optional broadcast suffix. -/
def eventSummary (m : Match) : String :=
  (if m.isHome then "🏠" else "✈️") ++ " Palmeiras vs " ++ m.opponent ++
    (if m.broadcast ≠ "" then " 📺 " ++ m.broadcast else "")

/-- Remote-calendar behavior for one sync run: the inventory map
fixtureId → eventId built by `getExistingEvents`, and for each loop index
whether the `events.update`/`events.insert` call succeeds (`writeOk`) with
the thrown message when it does not (`errMsg`). -/
structure CalWriteEnv where
  existing : String → Option String
  writeOk : Nat → Bool
  errMsg : Nat → String

/-- The reconciliation loop of `syncMatchesToCalendar` (src/src/calendar.js,
lines 198–231) from loop index `i` on: returns
`(created, updated, skipped, errors)`.  A failed write is caught: the error
is recorded with the event summary, `skipped` is incremented, and the loop
continues with the remaining matches. -/
def syncLoop (env : CalWriteEnv) (i : Nat) :
    List Match → Nat × Nat × Nat × List (String × String)
  | [] => (0, 0, 0, [])
  | m :: rest =>
    let res := syncLoop env (i + 1) rest
    if env.writeOk i then
      match env.existing (getMatchUniqueKey m) with
      | some _ => (res.1, res.2.1 + 1, res.2.2.1, res.2.2.2)
      | none => (res.1 + 1, res.2.1, res.2.2.1, res.2.2.2)
    else
      (res.1, res.2.1, res.2.2.1 + 1, (eventSummary m, env.errMsg i) :: res.2.2.2)

/-- The result object of `syncMatchesToCalendar`. -/
structure SyncCounts where
  created : Nat
  updated : Nat
  skipped : Nat
  errors : List (String × String)
  total : Nat
  deriving Repr, DecidableEq

/-- `syncMatchesToCalendar` (src/src/calendar.js, lines 187–240). -/
def syncMatchesToCalendar (env : CalWriteEnv) (ms : List Match) : SyncCounts :=
  match syncLoop env 0 ms with
  | (c, u, s, e) => ⟨c, u, s, e, ms.length⟩

/-- Five fixtures to reconcile (the spec's write-isolation example). -/
def fiveMatches : List Match := List.replicate 5 sampleLater

/-- A calendar behavior where only the third write (index 2) throws. -/
def thirdWriteFails : CalWriteEnv :=
  ⟨fun _ => none, fun i => i != 2, fun _ => "API error"⟩

/-! ## Sync Orchestrator (`src/src/sync.js`, `runSync`) -/

/-- A persisted run-status record: the subset of the JS result object that
carries the run outcome (the wall-clock fields `startTime`/`endTime`/
`duration` are raw clock reads with no logic on them).  An error-path entry
of `errors` has no fixture, hence the optional first component. -/
structure RunResult where
  runId : String
  status : String
  fixturesFound : Nat
  created : Nat
  updated : Nat
  skipped : Nat
  errors : List (Option String × String)
  message : String
  deriving Repr, DecidableEq

/-- Environment of one `runSync()` call: whether `GOOGLE_CREDENTIALS` is
present, the outcome of `fetchPalmeirasFixtures()` (which may throw), the
outcome of `syncToCalendar(fixtures)` (auth failures throw), and the
`Date.now()` at start (used for the run id). -/
structure RunEnv where
  credsPresent : Bool
  fetchOutcome : Except String (List Match)
  calOutcome : Except String SyncCounts
  startMs : Int

/-- The run-status record built in the `catch` block of `runSync`. -/
def errorRunResult (startMs : Int) (msg : String) : RunResult :=
  { runId := "sync-" ++ toString startMs, status := "error", fixturesFound := 0,
    created := 0, updated := 0, skipped := 0, errors := [(none, msg)],
    message := "Sync failed: " ++ msg }

/-- The run-status record of the zero-fixtures short-circuit of `runSync`. -/
def noFixturesRunResult (startMs : Int) : RunResult :=
  { runId := "sync-" ++ toString startMs, status := "success", fixturesFound := 0,
    created := 0, updated := 0, skipped := 0, errors := [],
    message := "No upcoming fixtures found" }

/-- The run-status record of a completed sync in `runSync`. -/
def successRunResult (startMs : Int) (found : Nat) (sc : SyncCounts) : RunResult :=
  { runId := "sync-" ++ toString startMs, status := "success", fixturesFound := found,
    created := sc.created, updated := sc.updated, skipped := sc.skipped,
    errors := sc.errors.map (fun e => (some e.1, e.2)),
    message := "Sync complete! " ++ toString sc.created ++ " created, " ++
      toString sc.updated ++ " updated, " ++ toString sc.skipped ++ " errors" }

/-- `runSync` (src/src/sync.js, lines 482–568): the returned-or-thrown value
(`Except` models throwing) together with the run-status records persisted
through `saveRunStatus`, in order.  `config.js`'s `sync()` (lines 537–620)
has the same status-persistence skeleton. -/
def runSync (env : RunEnv) : Except String RunResult × List RunResult :=
  if env.credsPresent = false then
    (.error "Missing environment variables: GOOGLE_CREDENTIALS",
     [errorRunResult env.startMs "Missing environment variables: GOOGLE_CREDENTIALS"])
  else
    match env.fetchOutcome with
    | .error msg => (.error msg, [errorRunResult env.startMs msg])
    | .ok fixtures =>
      if fixtures.length = 0 then
        (.ok (noFixturesRunResult env.startMs), [noFixturesRunResult env.startMs])
      else
        match env.calOutcome with
        | .error msg => (.error msg, [errorRunResult env.startMs msg])
        | .ok sc =>
          (.ok (successRunResult env.startMs fixtures.length sc),
           [successRunResult env.startMs fixtures.length sc])

/-! ## Status store (`src/src/storage.js`) -/

/-- Filesystem/JSON behavior behind the status store: whether `writeFile`
throws, whether `readFile` throws (with its message), and the behavior of
`JSON.parse` / `JSON.stringify` on the stored text. -/
structure StorageEnv where
  writeFails : Bool
  readFails : Option String
  jsonParse : String → Except String RunResult
  jsonStringify : RunResult → String

/-- `saveRunStatus` (src/src/storage.js, lines 8–15): write the serialized
status to the status file; a write failure is caught and only logged, so the
call never throws and the previously stored content stays.  Returns the new
content of the status file. -/
def saveRunStatus (env : StorageEnv) (file : Option String) (status : RunResult) :
    Option String :=
  if env.writeFails then file else some (env.jsonStringify status)

/-- Value returned by `getLatestRunStatus`: the no-runs record, the parsed
stored record, or the error record with the failure message. -/
inductive ReadStatus where
  | noRuns (message : String)
  | parsed (v : RunResult)
  | errorStatus (message : String)
  deriving Repr, DecidableEq

/-- `getLatestRunStatus` (src/src/storage.js, lines 17–36): missing file →
`no_runs` record; read or parse failure → caught, `error` record carrying
the message; otherwise the parsed stored record. -/
def getLatestRunStatus (env : StorageEnv) (file : Option String) : ReadStatus :=
  match file with
  | none => .noRuns "No sync runs have been executed yet"
  | some content =>
    match env.readFails with
    | some m => .errorStatus ("Failed to read status: " ++ m)
    | none =>
      match env.jsonParse content with
      | .error m => .errorStatus ("Failed to read status: " ++ m)
      | .ok v => .parsed v

/-- A concrete storage behavior: writes succeed, reads succeed, stored text
never parses. -/
def sampleStorageEnv : StorageEnv :=
  ⟨false, none, fun _ => .error "bad json", fun _ => "serialized"⟩

/-! ### Lemmas about the dedup map -/

lemma lookup_append_single (acc : List (String × Match)) (k k' : String) (m : Match) :
    (acc ++ [(k', m)]).lookup k =
      match acc.lookup k with
      | some v => some v
      | none => if k = k' then some m else none := by
  induction acc with
  | nil =>
    by_cases h : k = k'
    · have hb : (k == k') = true := beq_iff_eq.mpr h
      simp [List.lookup_cons, hb, h]
    · have hb : (k == k') = false := beq_eq_false_iff_ne.mpr h
      simp [List.lookup_cons, hb, h]
  | cons e rest ih =>
    obtain ⟨ek, ev⟩ := e
    by_cases h : k = ek
    · have hb : (k == ek) = true := beq_iff_eq.mpr h
      simp [List.lookup_cons, hb]
    · have hb : (k == ek) = false := beq_eq_false_iff_ne.mpr h
      simp [List.lookup_cons, hb, ih]

lemma lookup_replaceEntry_other (acc : List (String × Match)) (k k' : String) (m : Match)
    (hne : k ≠ k') : (replaceEntry acc k' m).lookup k = acc.lookup k := by
  induction acc with
  | nil => rfl
  | cons e rest ih =>
    obtain ⟨ek, ev⟩ := e
    simp only [replaceEntry, List.map_cons] at ih ⊢
    by_cases he : ek = k'
    · have hb2 : (k == k') = false := beq_eq_false_iff_ne.mpr hne
      have hb3 : (k == ek) = false := beq_eq_false_iff_ne.mpr (he ▸ hne)
      rw [if_pos he]
      simp only [List.lookup_cons, hb2, hb3]
      exact ih
    · simp only [if_neg he, List.lookup_cons]
      by_cases h : k = ek
      · simp [beq_iff_eq.mpr h]
      · simp only [beq_eq_false_iff_ne.mpr h]
        exact ih

lemma lookup_replaceEntry_self (acc : List (String × Match)) (k' : String) (m : Match)
    (h : (acc.lookup k').isSome) : (replaceEntry acc k' m).lookup k' = some m := by
  induction acc with
  | nil => simp [List.lookup_nil] at h
  | cons e rest ih =>
    obtain ⟨ek, ev⟩ := e
    simp only [replaceEntry, List.map_cons] at ih ⊢
    by_cases he : ek = k'
    · simp [if_pos he, List.lookup_cons]
    · have hb : (k' == ek) = false := beq_eq_false_iff_ne.mpr (Ne.symm he)
      simp only [if_neg he, List.lookup_cons, hb]
      refine ih ?_
      simpa [List.lookup_cons, hb] using h

lemma dedupStep_lookup_self (acc : List (String × Match)) (m : Match) :
    (dedupStep acc m).lookup (getMatchUniqueKey m) =
      minStep (acc.lookup (getMatchUniqueKey m)) m := by
  unfold dedupStep
  cases hl : acc.lookup (getMatchUniqueKey m) with
  | none =>
    simp [lookup_append_single, hl, minStep]
  | some ex =>
    by_cases hd : m.date < ex.date
    · simp only [if_pos hd, minStep]
      rw [lookup_replaceEntry_self _ _ _ (by simp [hl])]
    · simp [if_neg hd, minStep, hl, hd]

lemma dedupStep_lookup_other (acc : List (String × Match)) (m : Match) (k : String)
    (hk : getMatchUniqueKey m ≠ k) : (dedupStep acc m).lookup k = acc.lookup k := by
  unfold dedupStep
  cases hl : acc.lookup (getMatchUniqueKey m) with
  | none =>
    simp only [lookup_append_single]
    cases acc.lookup k <;> simp [Ne.symm hk]
  | some ex =>
    by_cases hd : m.date < ex.date
    · simp only [if_pos hd]
      exact lookup_replaceEntry_other _ _ _ _ (Ne.symm hk)
    · simp [if_neg hd]

/-- Characterization of the final dedup-map entry of a key: a `minStep` fold
over the colliding matches, in input order. -/
lemma foldl_dedupStep_lookup (fut : List Match) (acc : List (String × Match)) (k : String) :
    (fut.foldl dedupStep acc).lookup k =
      (fut.filter (fun m => getMatchUniqueKey m == k)).foldl minStep (acc.lookup k) := by
  induction fut generalizing acc with
  | nil => simp
  | cons m rest ih =>
    simp only [List.foldl_cons]
    by_cases hk : getMatchUniqueKey m = k
    · rw [List.filter_cons_of_pos (by simp [hk]), List.foldl_cons, ih]
      subst hk
      rw [dedupStep_lookup_self]
    · rw [List.filter_cons_of_neg (by simp [hk]), ih, dedupStep_lookup_other _ _ _ hk]

lemma foldl_minStep_some (l : List Match) (v : Match) :
    ∃ w, l.foldl minStep (some v) = some w ∧ (w = v ∨ w ∈ l) ∧ w.date ≤ v.date ∧
      ∀ c ∈ l, w.date ≤ c.date := by
  induction l generalizing v with
  | nil => exact ⟨v, rfl, Or.inl rfl, le_refl _, by simp⟩
  | cons m rest ih =>
    simp only [List.foldl_cons, minStep]
    by_cases h : m.date < v.date
    · obtain ⟨w, hw, hmem, hle, hall⟩ := ih m
      rw [if_pos h]
      refine ⟨w, hw, ?_, le_of_lt (lt_of_le_of_lt hle h), ?_⟩
      · rcases hmem with h' | h'
        · exact Or.inr (h' ▸ List.mem_cons_self m rest)
        · exact Or.inr (List.mem_cons_of_mem _ h')
      · intro c hc
        rcases List.mem_cons.mp hc with h' | h'
        · exact h' ▸ hle
        · exact hall c h'
    · obtain ⟨w, hw, hmem, hle, hall⟩ := ih v
      rw [if_neg h]
      refine ⟨w, hw, ?_, hle, ?_⟩
      · rcases hmem with h' | h'
        · exact Or.inl h'
        · exact Or.inr (List.mem_cons_of_mem _ h')
      · intro c hc
        rcases List.mem_cons.mp hc with h' | h'
        · exact h' ▸ le_trans hle (not_lt.mp h)
        · exact hall c h'

lemma entriesConsistent_dedupStep (acc : List (String × Match)) (m : Match)
    (h : entriesConsistent acc) : entriesConsistent (dedupStep acc m) := by
  unfold dedupStep
  cases hl : acc.lookup (getMatchUniqueKey m) with
  | none =>
    intro e he
    rcases List.mem_append.mp he with h' | h'
    · exact h e h'
    · rw [List.mem_singleton] at h'
      subst h'
      rfl
  | some ex =>
    by_cases hd : m.date < ex.date
    · simp only [if_pos hd]
      intro e he
      simp only [replaceEntry, List.mem_map] at he
      obtain ⟨e', he', heq⟩ := he
      by_cases hk : e'.1 = getMatchUniqueKey m
      · rw [if_pos hk] at heq
        subst heq
        rfl
      · rw [if_neg hk] at heq
        subst heq
        exact h e' he'
    · simp only [if_neg hd]
      exact h

lemma entriesConsistent_foldl (fut : List Match) (acc : List (String × Match))
    (h : entriesConsistent acc) : entriesConsistent (fut.foldl dedupStep acc) := by
  induction fut generalizing acc with
  | nil => exact h
  | cons m rest ih => exact ih _ (entriesConsistent_dedupStep acc m h)

lemma keys_replaceEntry (acc : List (String × Match)) (k : String) (m : Match) :
    (replaceEntry acc k m).map Prod.fst = acc.map Prod.fst := by
  induction acc with
  | nil => rfl
  | cons e rest ih =>
    simp only [replaceEntry, List.map_cons] at ih ⊢
    by_cases h : e.1 = k
    · rw [if_pos h, ih]
      simp [h]
    · rw [if_neg h, ih]

lemma lookup_none_notmem_keys (acc : List (String × Match)) (k : String)
    (h : acc.lookup k = none) : k ∉ acc.map Prod.fst := by
  induction acc with
  | nil => simp
  | cons e rest ih =>
    obtain ⟨ek, ev⟩ := e
    rw [List.lookup_cons] at h
    by_cases hk : k = ek
    · simp [beq_iff_eq.mpr hk] at h
    · simp only [List.map_cons, List.mem_cons]
      push_neg
      refine ⟨hk, ih ?_⟩
      simpa [beq_eq_false_iff_ne.mpr hk] using h

lemma keys_nodup_dedupStep (acc : List (String × Match)) (m : Match)
    (h : (acc.map Prod.fst).Nodup) : ((dedupStep acc m).map Prod.fst).Nodup := by
  unfold dedupStep
  cases hl : acc.lookup (getMatchUniqueKey m) with
  | none =>
    rw [List.map_append, List.nodup_append]
    refine ⟨h, List.nodup_singleton _, ?_⟩
    intro a ha hb
    simp only [List.map_cons, List.map_nil, List.mem_singleton] at hb
    exact lookup_none_notmem_keys acc _ hl (hb ▸ ha)
  | some ex =>
    by_cases hd : m.date < ex.date
    · simp only [if_pos hd]
      rw [keys_replaceEntry]
      exact h
    · simp only [if_neg hd]
      exact h

lemma keys_nodup_foldl (fut : List Match) (acc : List (String × Match))
    (h : (acc.map Prod.fst).Nodup) : ((fut.foldl dedupStep acc).map Prod.fst).Nodup := by
  induction fut generalizing acc with
  | nil => exact h
  | cons m rest ih => exact ih _ (keys_nodup_dedupStep acc m h)

/-- If the dedup map has an entry for `k`, the values of the map filtered to
key `k` are exactly that entry's value. -/
lemma values_filter_of_lookup (acc : List (String × Match)) (k : String) (v : Match)
    (hc : entriesConsistent acc) (hn : (acc.map Prod.fst).Nodup)
    (hl : acc.lookup k = some v) :
    ((acc.map (·.2)).filter (fun m => getMatchUniqueKey m == k)) = [v] := by
  induction acc with
  | nil => simp [List.lookup_nil] at hl
  | cons e rest ih =>
    obtain ⟨ek, ev⟩ := e
    have he : ek = getMatchUniqueKey ev := hc (ek, ev) (List.mem_cons_self _ _)
    have hn' : (ek :: rest.map Prod.fst).Nodup := by simpa using hn
    obtain ⟨hknot, hnrest⟩ := List.nodup_cons.mp hn'
    rw [List.lookup_cons] at hl
    simp only [List.map_cons]
    by_cases hk : k = ek
    · have hv : ev = v := by simpa [beq_iff_eq.mpr hk] using hl
      rw [List.filter_cons_of_pos (by simp [← he, hk])]
      have hnil : ((rest.map (·.2)).filter (fun m => getMatchUniqueKey m == k)) = [] := by
        rw [List.filter_eq_nil_iff]
        intro a ha
        simp only [List.mem_map] at ha
        obtain ⟨e', he', heq⟩ := ha
        have he'c : e'.1 = getMatchUniqueKey e'.2 := hc e' (List.mem_cons_of_mem _ he')
        have hkne : e'.1 ≠ ek := fun hcontra =>
          hknot (hcontra ▸ List.mem_map_of_mem Prod.fst he')
        subst heq
        simp only [beq_iff_eq]
        rw [← he'c, hk]
        exact hkne
      rw [hnil, hv]
    · rw [List.filter_cons_of_neg (by simp [← he]; exact Ne.symm hk)]
      refine ih (fun e' he' => hc e' (List.mem_cons_of_mem _ he')) hnrest ?_
      simpa [beq_eq_false_iff_ne.mpr hk] using hl

/-- C1: whenever two or more strictly-future matches collide on the same
unique key, `processMatches` outputs exactly one match for that key, and it
is one of the colliding matches, with the earliest date among them. -/
theorem processMatches_keeps_unique_earliest (nowMs : Int) (ms : List Match) (key : String)
    (hcol : 2 ≤ ((ms.filter (fun m => nowMs < m.date)).filter
        (fun m => getMatchUniqueKey m == key)).length) :
    ((processMatches nowMs ms).filter (fun m => getMatchUniqueKey m == key)).length = 1 ∧
    ∀ m ∈ (processMatches nowMs ms).filter (fun m => getMatchUniqueKey m == key),
      m ∈ (ms.filter (fun m => nowMs < m.date)).filter (fun m => getMatchUniqueKey m == key) ∧
      ∀ c ∈ (ms.filter (fun m => nowMs < m.date)).filter (fun m => getMatchUniqueKey m == key),
        m.date ≤ c.date := by
  obtain ⟨c0, rest, hcons⟩ : ∃ c0 rest,
      (ms.filter (fun m => nowMs < m.date)).filter
        (fun m => getMatchUniqueKey m == key) = c0 :: rest := by
    cases h : (ms.filter (fun m => nowMs < m.date)).filter
        (fun m => getMatchUniqueKey m == key) with
    | nil => rw [h] at hcol; simp at hcol
    | cons a l => exact ⟨a, l, rfl⟩
  have hlook : ((ms.filter (fun m => nowMs < m.date)).foldl dedupStep []).lookup key =
      ((ms.filter (fun m => nowMs < m.date)).filter
        (fun m => getMatchUniqueKey m == key)).foldl minStep none := by
    rw [foldl_dedupStep_lookup]
    rfl
  rw [hcons] at hlook
  simp only [List.foldl_cons, minStep] at hlook
  obtain ⟨w, hw, hmem, hle0, hall⟩ := foldl_minStep_some rest c0
  rw [hw] at hlook
  have hvals : ((((ms.filter (fun m => nowMs < m.date)).foldl dedupStep []).map
      (·.2)).filter (fun m => getMatchUniqueKey m == key)) = [w] :=
    values_filter_of_lookup _ key w
      (entriesConsistent_foldl _ [] (by intro e he; simp at he))
      (keys_nodup_foldl _ [] (by simp)) hlook
  have hperm : (processMatches nowMs ms).Perm
      ((((ms.filter (fun m => nowMs < m.date)).foldl dedupStep []).map (·.2))) :=
    List.mergeSort_perm _ _
  have hfperm := hperm.filter (fun m => getMatchUniqueKey m == key)
  rw [hvals] at hfperm
  have hwcol : w ∈ (ms.filter (fun m => nowMs < m.date)).filter
      (fun m => getMatchUniqueKey m == key) := by
    rw [hcons]
    rcases hmem with h' | h'
    · exact h' ▸ List.mem_cons_self _ _
    · exact List.mem_cons_of_mem _ h'
  have hwall : ∀ c ∈ (ms.filter (fun m => nowMs < m.date)).filter
      (fun m => getMatchUniqueKey m == key), w.date ≤ c.date := by
    intro c hc
    rw [hcons] at hc
    rcases List.mem_cons.mp hc with h' | h'
    · exact h' ▸ hle0
    · exact hall c h'
  constructor
  · rw [hfperm.length_eq]
    rfl
  · intro m hm
    have : m ∈ [w] := hfperm.mem_iff.mp hm
    rw [List.mem_singleton] at this
    subst this
    exact ⟨hwcol, hwall⟩

/-- Witness for C1: two future matches with the same opponent and
competition but different dates; only the earlier one survives. -/
theorem processMatches_keeps_unique_earliest_witness :
    ((processMatches 0 [sampleLater, sampleEarlier]).filter
      (fun m => getMatchUniqueKey m == "palmeiras_vs_corinthians_brasileiro_2026")).length
        = 1 ∧
    ∀ m ∈ (processMatches 0 [sampleLater, sampleEarlier]).filter
      (fun m => getMatchUniqueKey m == "palmeiras_vs_corinthians_brasileiro_2026"),
      m ∈ (([sampleLater, sampleEarlier].filter (fun m => (0 : Int) < m.date)).filter
        (fun m => getMatchUniqueKey m == "palmeiras_vs_corinthians_brasileiro_2026")) ∧
      ∀ c ∈ (([sampleLater, sampleEarlier].filter (fun m => (0 : Int) < m.date)).filter
        (fun m => getMatchUniqueKey m == "palmeiras_vs_corinthians_brasileiro_2026")),
        m.date ≤ c.date :=
  processMatches_keeps_unique_earliest 0 _ _ (by decide)

/-- C2: the unique key is `palmeiras_vs_{opponent}_{competition}` with both
parts normalized, and it depends only on the opponent and competition
fields, so matches differing in any other field (e.g. date) share it. -/
theorem getMatchUniqueKey_format_and_stability (m₁ m₂ : Match)
    (hopp : m₁.opponent = m₂.opponent) (hcomp : m₁.competition = m₂.competition) :
    getMatchUniqueKey m₁ =
      "palmeiras_vs_" ++ normalizeKeyPart m₁.opponent ++ "_" ++
        normalizeKeyPart m₁.competition ∧
    getMatchUniqueKey m₁ = getMatchUniqueKey m₂ := by
  refine ⟨rfl, ?_⟩
  unfold getMatchUniqueKey
  rw [hopp, hcomp]

/-- Witness for C2: the same fixture re-scraped with a shifted date keeps the
identical unique key. -/
theorem getMatchUniqueKey_format_and_stability_witness :
    getMatchUniqueKey sampleLater =
      "palmeiras_vs_" ++ normalizeKeyPart sampleLater.opponent ++ "_" ++
        normalizeKeyPart sampleLater.competition ∧
    getMatchUniqueKey sampleLater = getMatchUniqueKey sampleEarlier :=
  getMatchUniqueKey_format_and_stability sampleLater sampleEarlier rfl rfl


/-- C3: `createDateInSaoPaulo` converges on the absolute instant whose civil
reading in the target timezone is the requested wall-clock time, honoring
whatever (date-dependent) offset the timezone database supplies: whenever
the calendar round-trip holds at the provisional instant and the offset does
not change between the provisional and the produced instant, the produced
instant plus its offset re-encodes to the requested fields.  In particular
`parseDateTime` on `"10/1 – 20h30"` for `"Brasileirão 2026"` (São Paulo at
UTC-3 on that date) yields `2026-01-10T23:30:00Z`
(= `dateUTCms 2026 0 10 23 30` = 1768087800000 epoch ms). -/
theorem createDateInSaoPaulo_timezone_correct (tz : Int → Int)
    (year month day hour minute : Int)
    (hrt : reencodeCivil (dateUTCms year (month - 1) day hour minute +
        tz (dateUTCms year (month - 1) day hour minute)) =
      dateUTCms year (month - 1) day hour minute +
        tz (dateUTCms year (month - 1) day hour minute))
    (hconst : tz (createDateInSaoPaulo tz year month day hour minute) =
      tz (dateUTCms year (month - 1) day hour minute)) :
    createDateInSaoPaulo tz year month day hour minute +
        tz (createDateInSaoPaulo tz year month day hour minute) =
      dateUTCms year (month - 1) day hour minute ∧
    parseDateTime saoPauloTz (dateUTCms 2025 9 11 0 0) "10/1 – 20h30"
        "Brasileirão 2026" = some (dateUTCms 2026 0 10 23 30) ∧
    dateUTCms 2026 0 10 23 30 = 1768087800000 := by
  refine ⟨?_, by decide, by decide⟩
  rw [hconst]
  simp only [createDateInSaoPaulo]
  rw [hrt]
  omega

/-- Witness for C3 at the spec's concrete instance (constant UTC-3 offset,
10 January 2026 20:30 São-Paulo wall clock). -/
theorem createDateInSaoPaulo_timezone_correct_witness :
    createDateInSaoPaulo saoPauloTz 2026 1 10 20 30 +
        saoPauloTz (createDateInSaoPaulo saoPauloTz 2026 1 10 20 30) =
      dateUTCms 2026 (1 - 1) 10 20 30 ∧
    parseDateTime saoPauloTz (dateUTCms 2025 9 11 0 0) "10/1 – 20h30"
        "Brasileirão 2026" = some (dateUTCms 2026 0 10 23 30) ∧
    dateUTCms 2026 0 10 23 30 = 1768087800000 :=
  createDateInSaoPaulo_timezone_correct saoPauloTz 2026 1 10 20 30 (by decide) rfl

/-- C4: when the instant computed with the chosen year is strictly before
`now` and the month of `now` is December (`getMonth() >= 11`),
`parseDateTime` recomputes the instant with the year incremented by one and
returns that; in particular `"05/1 – 15h00"` with no 4-digit year in the
competition text and `now` = 2025-12-28 parses to 5 January 15h00 São-Paulo
time of 2026 (= `dateUTCms 2026 0 5 18 0`), not 2025. -/
theorem parseDateTime_december_rollover (tz : Int → Int) (nowMs : Int)
    (s comp : String) (day month hour minute : Nat)
    (hmatch : dtMatch s.data = some (day, month, hour, minute))
    (hpast : createDateInSaoPaulo tz (chosenYear nowMs comp) (month : Int) (day : Int)
        (hour : Int) (minute : Int) < nowMs)
    (hdec : 11 ≤ getUTCMonth0 nowMs) :
    parseDateTime tz nowMs s comp =
      some (createDateInSaoPaulo tz (chosenYear nowMs comp + 1) (month : Int) (day : Int)
        (hour : Int) (minute : Int)) ∧
    parseDateTime saoPauloTz (dateUTCms 2025 11 28 12 0) "05/1 – 15h00" "Copa do Brasil" =
      some (dateUTCms 2026 0 5 18 0) ∧
    getUTCFullYear (dateUTCms 2026 0 5 18 0 + saoPauloTz (dateUTCms 2026 0 5 18 0)) =
      2026 := by
  refine ⟨?_, by decide, by decide⟩
  simp only [parseDateTime, hmatch]
  rw [if_pos ⟨hpast, hdec⟩]

/-- Witness for C4 at the spec's concrete instance (`now` 2025-12-28, no
embedded year in the competition text). -/
theorem parseDateTime_december_rollover_witness :
    parseDateTime saoPauloTz (dateUTCms 2025 11 28 12 0) "05/1 – 15h00" "Copa do Brasil" =
      some (createDateInSaoPaulo saoPauloTz
        (chosenYear (dateUTCms 2025 11 28 12 0) "Copa do Brasil" + 1) 1 5 15 0) ∧
    parseDateTime saoPauloTz (dateUTCms 2025 11 28 12 0) "05/1 – 15h00" "Copa do Brasil" =
      some (dateUTCms 2026 0 5 18 0) ∧
    getUTCFullYear (dateUTCms 2026 0 5 18 0 + saoPauloTz (dateUTCms 2026 0 5 18 0)) =
      2026 :=
  parseDateTime_december_rollover saoPauloTz (dateUTCms 2025 11 28 12 0) "05/1 – 15h00"
    "Copa do Brasil" 5 1 15 0 (by decide) (by decide) (by decide)


/-! ### Broadcast normalization lemmas and claims -/

lemma broadcastStep_foldl (parts : List String) (acc : List String) :
    parts.foldl broadcastStep acc = acc ++ parts.filterMap amendedBroadcastToken := by
  induction parts generalizing acc with
  | nil => simp
  | cons p rest ih =>
    simp only [List.foldl_cons, List.filterMap_cons]
    rw [ih]
    unfold broadcastStep amendedBroadcastToken
    cases hc : channelMap.lookup p with
    | some v => simp
    | none =>
      by_cases hd : isAllDigits p.data
      · simp [hd, hc]
      · cases hf : fuzzyFindChannel p with
        | some v => simp [hd]
        | none => simp [hd]

/-- C7 counterexample: the claim says every unmapped token passes through
verbatim and no token is dropped, but on `"Globo, 5"` the numeric unmapped
token `"5"` is dropped: the code returns `"Globo"`, not the claim's
`"Globo, 5"`. -/
theorem parseBroadcast_drops_numeric_counterexample :
    parseBroadcast "Globo, 5" = "Globo" ∧ specBroadcast "Globo, 5" = "Globo, 5" ∧
    parseBroadcast "Globo, 5" ≠ specBroadcast "Globo, 5" := by decide

/-- C7 as amended: `parseBroadcast` splits on comma/pipe, trims, maps each
token through the channel table (exact hit, else — for non-numeric tokens —
first fuzzy hit or verbatim pass-through); a purely numeric token with no
exact table entry is dropped; tokens are re-joined with `", "`, and when
every token was dropped the raw text is returned unchanged. -/
theorem parseBroadcast_eq_amendedBroadcast (tvText : String) :
    parseBroadcast tvText = amendedBroadcast tvText := by
  simp only [parseBroadcast, amendedBroadcast, broadcastStep_foldl, List.nil_append]

/-! ### HTML fetcher lemmas and claims -/

lemma fetchHTMLAux_first_notFound (outcomes : Nat → FetchOutcome) (retries i fuel : Nat)
    (ds : List Int) (code : Nat) (h0 : outcomes i = .httpStatus code)
    (hc : code = 404 ∨ code = 410) :
    fetchHTMLAux outcomes retries i (fuel + 1) ds = ⟨.ok none, i + 1, ds⟩ := by
  unfold fetchHTMLAux
  rw [h0]
  rcases hc with h | h <;> simp [h]

/-- C5: a 404/410 response makes `fetchHTML` return the `null` sentinel after
that single attempt (no retry, no backoff, no exception), and the page loop
of `fetchPalmeirasFixtures` skips such a page, so it contributes zero
matches while the remaining pages are processed unchanged. -/
theorem fetchHTML_notPublished_skips (p : PageEnv) (code : Nat)
    (h0 : p.outcomes 0 = .httpStatus code) (hc : code = 404 ∨ code = 410)
    (pages₁ pages₂ : List PageEnv) :
    fetchHTML p.url p.outcomes 3 = ⟨.ok none, 1, []⟩ ∧
    pageContribution p = [] ∧
    fetchPalmeirasFixtures (pages₁ ++ p :: pages₂) =
      fetchPalmeirasFixtures (pages₁ ++ pages₂) := by
  have h1 : fetchHTML p.url p.outcomes 3 = ⟨.ok none, 1, []⟩ :=
    fetchHTMLAux_first_notFound p.outcomes 3 0 2 [] code h0 hc
  have h2 : pageContribution p = [] := by
    unfold pageContribution
    rw [h1]
  refine ⟨h1, h2, ?_⟩
  unfold fetchPalmeirasFixtures
  simp [h2]

/-- Witness for C5: a 404 page between healthy pages contributes nothing. -/
theorem fetchHTML_notPublished_skips_witness :
    fetchHTML samplePage404.url samplePage404.outcomes 3 = ⟨.ok none, 1, []⟩ ∧
    pageContribution samplePage404 = [] ∧
    fetchPalmeirasFixtures [samplePageOk, samplePage404] =
      fetchPalmeirasFixtures ([samplePageOk] ++ []) :=
  fetchHTML_notPublished_skips samplePage404 404 rfl (Or.inl rfl) [samplePageOk] []

lemma backoffFrom_eq_map :
    ∀ (n i : Nat),
      backoffFrom i n = (List.range n).map (fun (j : Nat) => 1000 * ((i : Int) + j + 1)) := by
  intro n
  induction n with
  | zero => intro i; rfl
  | succ g ih =>
    intro i
    rw [List.range_succ_eq_map, List.map_cons, List.map_map]
    unfold backoffFrom
    rw [ih (i + 1)]
    refine congrArg₂ _ (by push_cast; ring) ?_
    refine List.map_congr_left ?_
    intro j hj
    simp only [Function.comp_apply, Nat.succ_eq_add_one]
    push_cast
    ring

lemma fetchHTMLAux_all_fail (outcomes : Nat → FetchOutcome) (retries : Nat) :
    ∀ (fuel i : Nat) (ds : List Int),
    (∀ j, i ≤ j → j < i + fuel → attemptFails (outcomes j)) →
    fetchHTMLAux outcomes retries i fuel ds =
      ⟨.error ("Failed to fetch HTML after " ++ toString retries ++ " attempts"),
       i + fuel, ds ++ backoffFrom i (fuel - 1)⟩ := by
  intro fuel
  induction fuel with
  | zero =>
    intro i ds h
    simp [fetchHTMLAux, backoffFrom]
  | succ f ih =>
    intro i ds h
    have hi : attemptFails (outcomes i) := h i (le_refl i) (by omega)
    unfold fetchHTMLAux
    cases ho : outcomes i with
    | success html =>
      rw [ho] at hi
      exact hi.elim
    | httpStatus code =>
      rw [ho] at hi
      unfold attemptFails at hi
      push_neg at hi
      have hb : (decide (code = 404) || decide (code = 410)) = false := by
        simp [hi.1, hi.2]
      simp only [hb, Bool.false_eq_true, if_false]
      rw [ih (i + 1) (ds ++ if 0 < f then [1000 * ((i : Int) + 1)] else [])
        (fun j hj1 hj2 => h j (by omega) (by omega))]
      cases f with
      | zero =>
        simp [backoffFrom, FetchResult.mk.injEq]
      | succ g =>
        simp only [Nat.zero_lt_succ, if_true, Nat.add_sub_cancel]
        simp only [backoffFrom, FetchResult.mk.injEq, List.append_assoc,
          List.singleton_append]
        refine ⟨trivial, by omega, trivial⟩
    | networkError msg =>
      rw [ih (i + 1) (ds ++ if 0 < f then [1000 * ((i : Int) + 1)] else [])
        (fun j hj1 hj2 => h j (by omega) (by omega))]
      cases f with
      | zero =>
        simp [backoffFrom, FetchResult.mk.injEq]
      | succ g =>
        simp only [Nat.zero_lt_succ, if_true, Nat.add_sub_cancel]
        simp only [backoffFrom, FetchResult.mk.injEq, List.append_assoc,
          List.singleton_append]
        refine ⟨trivial, by omega, trivial⟩

/-- C6 counterexample: after exhausting the retries the thrown error carries
the attempt count but NOT the URL — the message for a page that always
returns HTTP 500 is exactly `"Failed to fetch HTML after 3 attempts"`, which
does not contain the fetched URL, contradicting the claim that the error
carries the URL. -/
theorem fetchHTML_error_lacks_url_counterexample :
    (fetchHTML "https://ptd.verdao.net/brasileirao-2026/" (fun _ => .httpStatus 500)
        3).result = .error "Failed to fetch HTML after 3 attempts" ∧
    strContainsSub "Failed to fetch HTML after 3 attempts"
      "https://ptd.verdao.net/brasileirao-2026/" = false := by decide

/-- C6 as amended: when every attempt fails retryably (non-2xx other than
404/410, or a thrown network error), `fetchHTML` performs exactly `retries`
attempts (default 3) with linearly increasing backoff of attempt×1000 ms
between consecutive attempts, and then fails with an error carrying the
attempt count (but not the URL). -/
theorem fetchHTML_exhausts_retries (url : String) (outcomes : Nat → FetchOutcome)
    (retries : Nat) (hfail : ∀ j, j < retries → attemptFails (outcomes j)) :
    fetchHTML url outcomes retries =
      ⟨.error ("Failed to fetch HTML after " ++ toString retries ++ " attempts"),
       retries, backoffSchedule (retries - 1)⟩ := by
  unfold fetchHTML
  rw [fetchHTMLAux_all_fail outcomes retries retries 0 []
    (fun j h1 h2 => hfail j (by omega))]
  have : backoffFrom 0 (retries - 1) = backoffSchedule (retries - 1) := by
    rw [backoffFrom_eq_map]
    unfold backoffSchedule
    refine List.map_congr_left ?_
    intro j hj
    push_cast
    ring
  simp [this]

/-- Witness for C6 (amended): a URL that always answers HTTP 500 exhausts the
3 default attempts with backoff `[1000, 2000]` and the count-carrying
error. -/
theorem fetchHTML_exhausts_retries_witness :
    fetchHTML "https://ptd.verdao.net/brasileirao-2026/" (fun _ => .httpStatus 500) 3 =
      ⟨.error ("Failed to fetch HTML after " ++ toString 3 ++ " attempts"), 3,
       backoffSchedule 2⟩ :=
  fetchHTML_exhausts_retries "https://ptd.verdao.net/brasileirao-2026/"
    (fun _ => .httpStatus 500) 3
    (fun j hj => show attemptFails (FetchOutcome.httpStatus 500) by simp [attemptFails])


/-! ### Calendar reconciler lemmas and claims -/

lemma syncLoop_spec (env : CalWriteEnv) :
    ∀ (ms : List Match) (i : Nat),
      (syncLoop env i ms).1 + (syncLoop env i ms).2.1 + (syncLoop env i ms).2.2.1 =
        ms.length ∧
      (syncLoop env i ms).2.2.2 =
        (ms.enumFrom i).filterMap (fun p =>
          if env.writeOk p.1 then none else some (eventSummary p.2, env.errMsg p.1)) ∧
      (syncLoop env i ms).2.2.1 = (syncLoop env i ms).2.2.2.length ∧
      (syncLoop env i ms).1 + (syncLoop env i ms).2.1 =
        ((ms.enumFrom i).filter (fun p => env.writeOk p.1)).length := by
  intro ms
  induction ms with
  | nil => intro i; simp [syncLoop]
  | cons m rest ih =>
    intro i
    obtain ⟨ih1, ih2, ih3, ih4⟩ := ih (i + 1)
    simp only [syncLoop, List.enumFrom_cons, List.length_cons]
    by_cases hw : env.writeOk i = true
    · cases he : env.existing (getMatchUniqueKey m) with
      | some eid =>
        simp only [hw, if_true, he]
        refine ⟨by omega, ?_, ih3, ?_⟩
        · simpa [List.filterMap_cons, hw] using ih2
        · simp [List.filter_cons, hw]
          omega
      | none =>
        simp only [hw, if_true, he]
        refine ⟨by omega, ?_, ih3, ?_⟩
        · simpa [List.filterMap_cons, hw] using ih2
        · simp [List.filter_cons, hw]
          omega
    · simp only [Bool.not_eq_true] at hw
      simp only [hw, Bool.false_eq_true, if_false]
      refine ⟨by omega, ?_, by simp [ih3], ?_⟩
      · simp [List.filterMap_cons, hw, ih2]
      · simpa [List.filter_cons, hw] using ih4

/-- C8: per-event write isolation in `syncMatchesToCalendar`.  For every
remote behavior and match list: each failing write is caught and recorded as
a `{fixture, error}` entry and one `skipped`; the remaining matches are all
still attempted; and `created + updated + skipped` always equals the number
of input matches, with `created + updated` the number of successful writes.
At the spec's example (5 matches, only the 3rd write throws) the result is
`skipped = 1` with 4 successful writes. -/
theorem syncMatchesToCalendar_isolates_failures (env : CalWriteEnv) (ms : List Match) :
    (syncMatchesToCalendar env ms).created + (syncMatchesToCalendar env ms).updated +
        (syncMatchesToCalendar env ms).skipped = ms.length ∧
    (syncMatchesToCalendar env ms).errors =
      (ms.enumFrom 0).filterMap (fun p =>
        if env.writeOk p.1 then none else some (eventSummary p.2, env.errMsg p.1)) ∧
    (syncMatchesToCalendar env ms).skipped =
      (syncMatchesToCalendar env ms).errors.length ∧
    (syncMatchesToCalendar env ms).created + (syncMatchesToCalendar env ms).updated =
      ((ms.enumFrom 0).filter (fun p => env.writeOk p.1)).length ∧
    (syncMatchesToCalendar env ms).total = ms.length ∧
    (syncMatchesToCalendar thirdWriteFails fiveMatches).skipped = 1 ∧
    (syncMatchesToCalendar thirdWriteFails fiveMatches).created +
        (syncMatchesToCalendar thirdWriteFails fiveMatches).updated = 4 := by
  obtain ⟨h1, h2, h3, h4⟩ := syncLoop_spec env ms 0
  unfold syncMatchesToCalendar
  refine ⟨h1, h2, h3, h4, rfl, by decide, by decide⟩

/-! ### Orchestrator claims -/

/-- C9: every `runSync` call persists exactly one run-status record: on the
successful paths (including the zero-fixtures short-circuit) a `success`
record with the run's counts is persisted and returned, and on every
exception path an `error` record carrying the message is persisted before
the exception propagates. -/
theorem runSync_persists_one_status (env : RunEnv) :
    (runSync env).2.length = 1 ∧
    (∀ r, (runSync env).1 = .ok r → (runSync env).2 = [r] ∧ r.status = "success") ∧
    (∀ msg, (runSync env).1 = .error msg →
      (runSync env).2 = [errorRunResult env.startMs msg] ∧
      (errorRunResult env.startMs msg).status = "error" ∧
      (errorRunResult env.startMs msg).message = "Sync failed: " ++ msg) ∧
    (∀ fixtures sc, env.credsPresent = true → env.fetchOutcome = .ok fixtures →
      fixtures.length ≠ 0 → env.calOutcome = .ok sc →
      ∃ r, (runSync env).1 = .ok r ∧ (runSync env).2 = [r] ∧
        r.status = "success" ∧ r.fixturesFound = fixtures.length ∧
        r.created = sc.created ∧ r.updated = sc.updated ∧ r.skipped = sc.skipped) := by
  obtain ⟨creds, fo, co, sms⟩ := env
  cases creds with
  | false =>
    refine ⟨rfl, ?_, ?_, ?_⟩
    · intro r hr
      simp [runSync] at hr
    · intro msg hmsg
      simp only [runSync] at hmsg ⊢
      simp at hmsg
      subst hmsg
      exact ⟨rfl, rfl, rfl⟩
    · intro fixtures sc hcreds
      simp at hcreds
  | true =>
    cases fo with
    | error m =>
      refine ⟨rfl, ?_, ?_, ?_⟩
      · intro r hr
        simp [runSync] at hr
      · intro msg hmsg
        simp only [runSync] at hmsg ⊢
        simp at hmsg
        subst hmsg
        exact ⟨rfl, rfl, rfl⟩
      · intro fixtures sc _ hfo
        simp at hfo
    | ok fixtures =>
      by_cases hl : fixtures.length = 0
      · refine ⟨by simp [runSync, hl], ?_, ?_, ?_⟩
        · intro r hr
          simp only [runSync, hl] at hr ⊢
          simp at hr
          subst hr
          exact ⟨by simp, rfl⟩
        · intro msg hmsg
          simp [runSync, hl] at hmsg
        · intro fixtures' sc _ hfo hne
          simp only at hfo
          injection hfo with hfo
          subst hfo
          exact absurd hl hne
      · cases co with
        | error m =>
          refine ⟨by simp [runSync, hl], ?_, ?_, ?_⟩
          · intro r hr
            simp [runSync, hl] at hr
          · intro msg hmsg
            simp only [runSync, hl] at hmsg ⊢
            simp [hl] at hmsg
            subst hmsg
            simp [hl]
            exact ⟨rfl, rfl⟩
          · intro fixtures' sc _ _ _ hco
            simp at hco
        | ok sc =>
          have hrun : runSync ⟨true, Except.ok fixtures, Except.ok sc, sms⟩ =
              (Except.ok (successRunResult sms fixtures.length sc),
               [successRunResult sms fixtures.length sc]) := by
            simp [runSync, hl]
          refine ⟨by rw [hrun]; rfl, ?_, ?_, ?_⟩
          · intro r hr
            rw [hrun] at hr ⊢
            injection hr with hr
            subst hr
            exact ⟨rfl, rfl⟩
          · intro msg hmsg
            rw [hrun] at hmsg
            simp at hmsg
          · intro fixtures' sc' _ hfo hne hco
            injection hfo with hfo
            subst hfo
            injection hco with hco
            subst hco
            exact ⟨successRunResult sms fixtures.length sc, by rw [hrun], by rw [hrun],
              rfl, rfl, rfl, rfl, rfl⟩

/-- Witness for C9: a run whose fetch throws persists exactly one record,
the `error` record carrying the message, before re-throwing. -/
theorem runSync_persists_one_status_witness :
    (runSync ⟨true, .error "network down", .error "unused", 0⟩).2.length = 1 ∧
    ((runSync ⟨true, .error "network down", .error "unused", 0⟩).2 =
      [errorRunResult 0 "network down"] ∧
    (errorRunResult 0 "network down").status = "error" ∧
    (errorRunResult 0 "network down").message = "Sync failed: " ++ "network down") :=
  have h := runSync_persists_one_status ⟨true, .error "network down", .error "unused", 0⟩
  ⟨h.1, h.2.2.1 "network down" rfl⟩

/-! ### Status store claims -/

/-- C10: the status-store operations are total at the public interface.
`saveRunStatus` never throws: a write failure is swallowed (logged only) and
leaves the stored status unchanged, otherwise the serialized record is
stored.  `getLatestRunStatus` never throws: missing file → `no_runs` record,
read failure or unparseable content → `error` record carrying the failure
message, otherwise the parsed stored record. -/
theorem storage_interface_total (env : StorageEnv) (file : Option String)
    (status : RunResult) :
    (env.writeFails = true → saveRunStatus env file status = file) ∧
    (env.writeFails = false →
      saveRunStatus env file status = some (env.jsonStringify status)) ∧
    (file = none →
      getLatestRunStatus env file = .noRuns "No sync runs have been executed yet") ∧
    (∀ content m, file = some content → env.readFails = some m →
      getLatestRunStatus env file = .errorStatus ("Failed to read status: " ++ m)) ∧
    (∀ content m, file = some content → env.readFails = none →
      env.jsonParse content = .error m →
      getLatestRunStatus env file = .errorStatus ("Failed to read status: " ++ m)) ∧
    (∀ content v, file = some content → env.readFails = none →
      env.jsonParse content = .ok v → getLatestRunStatus env file = .parsed v) := by
  refine ⟨?_, ?_, ?_, ?_, ?_, ?_⟩
  · intro hw
    simp [saveRunStatus, hw]
  · intro hw
    simp [saveRunStatus, hw]
  · intro hf
    subst hf
    rfl
  · intro content m hf hr
    subst hf
    simp [getLatestRunStatus, hr]
  · intro content m hf hr hp
    subst hf
    simp [getLatestRunStatus, hr, hp]
  · intro content v hf hr hp
    subst hf
    simp [getLatestRunStatus, hr, hp]

/-- Witness for C10: a successful write stores the serialized record; a
missing file reads as `no_runs`; unparseable content reads as an `error`
record with the parse message. -/
theorem storage_interface_total_witness :
    saveRunStatus sampleStorageEnv none (errorRunResult 0 "boom") = some "serialized" ∧
    getLatestRunStatus sampleStorageEnv none =
      .noRuns "No sync runs have been executed yet" ∧
    getLatestRunStatus sampleStorageEnv (some "garbage") =
      .errorStatus ("Failed to read status: " ++ "bad json") :=
  have h := storage_interface_total sampleStorageEnv none (errorRunResult 0 "boom")
  have h2 := storage_interface_total sampleStorageEnv (some "garbage")
    (errorRunResult 0 "boom")
  ⟨h.2.1 rfl, h.2.2.1 rfl, h2.2.2.2.2.1 "garbage" "bad json" rfl rfl rfl⟩

end PalmeirasSync
